import Mathlib

/-!
Verification of the urban tree planting core against its specification.

This file gives a shallow embedding of the core of the repository
(files urban_tree_planting/utils/geo_utils.py,
core/priority_calculator.py, core/transformer.py, core/mask_generator.py
and the spot extraction of core/visualizer.py) and proves the stated
properties about it.

Conventions of the embedding:
- Python floats are modelled as exact rationals.
- Dense grids are total functions from pixel coordinates, written
  (x, y) = (column, row), together with an explicit width and height;
  numpy indexing arr[row, col] corresponds to f x y with x the column.
- Euclidean distances enter the code only through comparisons against
  fixed nonnegative thresholds, so the embedding carries the squared
  distance (a natural number) and compares it with the squared
  threshold, which is exact. Where a claim itself speaks about the
  distance, the theorem statement uses Real.sqrt of that square.
- The Gaussian kernel falloff exp(-(d/radius)^2) of the amenity
  component depends on d only through the squared distance and is kept
  abstract as a parameter g from the squared pixel distance to a
  rational value; only its positivity and strict monotonicity are used,
  and they hold for the real exponential.
-/

namespace UrbanTree

/-! ## geo_utils -/

/-- Truncation toward zero, the behaviour of the Python builtin int()
on a float. -/
def pyTrunc (q : ℚ) : ℤ := if 0 ≤ q then ⌊q⌋ else ⌈q⌉

/-- Embedding of geo_utils.latlon_to_pixel: normalize the coordinate
inside the bounds to the range 0..1, scale to the pixel grid, and
truncate with the Python int builtin. Argument order follows the
source. -/
def latlon_to_pixel (lat lon min_lat max_lat min_lon max_lon : ℚ)
    (img_height img_width : ℕ) : ℤ × ℤ :=
  (pyTrunc ((lon - min_lon) / (max_lon - min_lon) * img_width),
    pyTrunc ((max_lat - lat) / (max_lat - min_lat) * img_height))

/-- Embedding of geo_utils.pixel_to_latlon. -/
def pixel_to_latlon (x_pixel y_pixel : ℚ) (min_lat max_lat min_lon max_lon : ℚ)
    (img_height img_width : ℕ) : ℚ × ℚ :=
  (max_lat - y_pixel / img_height * (max_lat - min_lat),
    min_lon + x_pixel / img_width * (max_lon - min_lon))

/-- Geographic bounds (min_lon, min_lat, max_lon, max_lat) of the raster. -/
structure Bounds where
  min_lon : ℚ
  min_lat : ℚ
  max_lon : ℚ
  max_lat : ℚ

/-! ## Pixel grids and the euclidean distance transform -/

/-- Row-major scan of all pixel coordinates (x, y) of a width by height
grid, the iteration order of numpy and cv2. -/
def scanPixels (width height : ℕ) : List (ℕ × ℕ) :=
  (List.range height).flatMap (fun y => (List.range width).map (fun x => (x, y)))

/-- Pixels of the grid at which a boolean mask holds, in scan order. -/
def truePixels (width height : ℕ) (mask : ℕ → ℕ → Bool) : List (ℕ × ℕ) :=
  (scanPixels width height).filter (fun p => mask p.1 p.2)

/-- Squared euclidean distance between two pixels. -/
def sqDistPix (p q : ℕ × ℕ) : ℕ :=
  ((p.1 : ℤ) - q.1).natAbs ^ 2 + ((p.2 : ℤ) - q.2).natAbs ^ 2

/-- Squared distance from pixel p to the nearest point of pts. The call
scipy.ndimage.distance_transform_edt(~mask) computes, at every pixel,
the euclidean distance to the nearest true pixel of the mask; the
embedding keeps its square. The scoring code only calls it on a
nonempty mask; the empty case is arbitrary. -/
def sqDistTo (pts : List (ℕ × ℕ)) (p : ℕ × ℕ) : ℕ :=
  match pts with
  | [] => 0
  | q :: rest => rest.foldl (fun acc r => min acc (sqDistPix p r)) (sqDistPix p q)

/-- One numpy masked assignment score[cond] = v, applied on top of the
previously assigned value acc: where the condition holds the pixel
takes v, elsewhere it keeps acc. -/
def applyTier (c : Prop) [Decidable c] (v acc : ℚ) : ℚ := if c then v else acc

/-! ## PriorityCalculator components -/

/-- Tier lookup of PriorityCalculator._calculate_sidewalk_priority as a
function of the squared pixel distance d2; for d at least 0 the source
comparisons d LE 20, d LE 50 are exactly d2 LE 400, d2 LE 2500. The
assignments are applied in source order. -/
def sidewalkTier (d2 : ℕ) : ℚ :=
  applyTier (2500 < d2) 5
    (applyTier (400 < d2 ∧ d2 ≤ 2500) 20
      (applyTier (d2 ≤ 400) 35 0))

/-- Embedding of PriorityCalculator._calculate_sidewalk_priority at one
pixel: an empty mask short-circuits to zero, otherwise the distance
transform is tiered. -/
def sidewalk_priority (width height : ℕ) (sidewalk_mask : ℕ → ℕ → Bool)
    (x y : ℕ) : ℚ :=
  if (truePixels width height sidewalk_mask).isEmpty then 0
  else sidewalkTier (sqDistTo (truePixels width height sidewalk_mask) (x, y))

/-- Tier lookup of PriorityCalculator._calculate_building_priority as a
function of the squared pixel distance d2. The source converts the
pixel distance d to meters by the factor 0.6 = 3/5 and compares the
result with 5, 15, 30; squaring, distance_m cmp t is exactly
9 * d2 cmp 25 * t^2. The masked assignments are applied in source
order (25, then 15, then 10, then 5). -/
def buildingTier (d2 : ℕ) : ℚ :=
  applyTier (22500 < 9 * d2) 5
    (applyTier (0 < 9 * d2 ∧ 9 * d2 < 625) 10
      (applyTier (5625 < 9 * d2 ∧ 9 * d2 ≤ 22500) 15
        (applyTier (625 ≤ 9 * d2 ∧ 9 * d2 ≤ 5625) 25 0)))

/-- Embedding of PriorityCalculator._calculate_building_priority at one
pixel. -/
def building_priority (width height : ℕ) (building_mask : ℕ → ℕ → Bool)
    (x y : ℕ) : ℚ :=
  if (truePixels width height building_mask).isEmpty then 0
  else buildingTier (sqDistTo (truePixels width height building_mask) (x, y))

/-- Embedding of PriorityCalculator._calculate_sun_priority at one
pixel: tiering of the continuous shadow intensity, masked assignments
in source order (20, then 12, then 5). -/
def sun_priority (shadow_intensity : ℕ → ℕ → ℚ) (x y : ℕ) : ℚ :=
  applyTier ((3 : ℚ)/5 ≤ shadow_intensity x y) 5
    (applyTier ((3 : ℚ)/10 ≤ shadow_intensity x y ∧ shadow_intensity x y < 3/5) 12
      (applyTier (shadow_intensity x y < (3 : ℚ)/10) 20 0))

/-! ## Amenity density component -/

/-- Kernel radius in pixels: int(sample_radius_m / meters_per_pixel)
with sample_radius_m = 50 and meters_per_pixel = 0.3. -/
def radius_px : ℕ := (pyTrunc ((50 : ℚ) / (3/10))).toNat

/-- Value of the circular kernel at offset (dx, dy) from its center.
The source sets the entry to the Gaussian falloff of the distance when
dist LE radius_px (equivalently, squared distance LE radius_px^2) and
leaves it zero outside the circle. The falloff g is abstract; see the
file header. -/
def kernelVal (g : ℕ → ℚ) (dx dy : ℤ) : ℚ :=
  if (dx ^ 2 + dy ^ 2).toNat ≤ radius_px ^ 2 then g (dx ^ 2 + dy ^ 2).toNat else 0

/-- Contribution of one amenity at pixel position a to the density map
at pixel (x, y): the kernel slice added around the amenity covers the
image pixels within Chebyshev distance radius_px of it, and the kernel
entry picked for image pixel (x, y) is the one at offset
(x - a.1, y - a.2) from the kernel center. -/
def amenityContrib (g : ℕ → ℚ) (a : ℤ × ℤ) (x y : ℕ) : ℚ :=
  if ((x : ℤ) - a.1).natAbs ≤ radius_px ∧ ((y : ℤ) - a.2).natAbs ≤ radius_px then
    kernelVal g ((x : ℤ) - a.1) ((y : ℤ) - a.2)
  else 0

/-- The accumulated (summed, not maxed) amenity density map. -/
def density_map (g : ℕ → ℚ) (amenity_pixels : List (ℤ × ℤ)) (x y : ℕ) : ℚ :=
  (amenity_pixels.map (fun a => amenityContrib g a x y)).sum

/-- Maximum of a grid over its pixels, as computed by the numpy max
reduction. The fold is seeded with 0; the source only compares the
maximum with 0 and divides by it when it is positive, and on those
uses this seed is indistinguishable from the numpy reduction. -/
def gridMax (width height : ℕ) (f : ℕ → ℕ → ℚ) : ℚ :=
  ((scanPixels width height).map (fun p => f p.1 p.2)).foldr max 0

/-- Embedding of PriorityCalculator._calculate_amenity_priority at one
pixel. Amenities are (lat, lon) points (the source keeps exactly the
rows whose geometry is a Point; the model takes the already filtered
point list, so both emptiness guards coincide). Each point is projected
with latlon_to_pixel, the kernel is accumulated around each projected
position, the density map is normalized by its own maximum when that is
positive, and scaled by max_points = 10. -/
def amenityPixels (amenities : List (ℚ × ℚ)) (b : Bounds)
    (width height : ℕ) : List (ℤ × ℤ) :=
  amenities.map (fun a =>
    latlon_to_pixel a.1 a.2 b.min_lat b.max_lat b.min_lon b.max_lon height width)

def amenity_priority (g : ℕ → ℚ) (amenities : List (ℚ × ℚ)) (b : Bounds)
    (width height : ℕ) (x y : ℕ) : ℚ :=
  if amenities.isEmpty then 0 else
  (if 0 < gridMax width height (density_map g (amenityPixels amenities b width height)) then
      density_map g (amenityPixels amenities b width height) x y /
        gridMax width height (density_map g (amenityPixels amenities b width height))
    else density_map g (amenityPixels amenities b width height) x y) * 10

/-! ## PriorityCalculator.calculate -/

/-- Inputs of PriorityCalculator.calculate. -/
structure ScoreInputs where
  width : ℕ
  height : ℕ
  shadow_intensity : ℕ → ℕ → ℚ
  sidewalk_mask : ℕ → ℕ → Bool
  building_mask : ℕ → ℕ → Bool
  street_mask : ℕ → ℕ → Bool
  vegetation_mask : ℕ → ℕ → Bool
  falloff : ℕ → ℚ
  amenities : List (ℚ × ℚ)
  bounds : Bounds

/-- Validity predicate of the scorer: not building, not street, not
vegetation. -/
def valid_area (inp : ScoreInputs) (x y : ℕ) : Bool :=
  !inp.building_mask x y && !inp.street_mask x y && !inp.vegetation_mask x y

/-- The enhanced priority score at one pixel: sum of the four
components plus the all-zero gap score, multiplied elementwise by the
validity mask. -/
def enhanced_priority (inp : ScoreInputs) (x y : ℕ) : ℚ :=
  (sidewalk_priority inp.width inp.height inp.sidewalk_mask x y
    + building_priority inp.width inp.height inp.building_mask x y
    + sun_priority inp.shadow_intensity x y
    + amenity_priority inp.falloff inp.amenities inp.bounds inp.width inp.height x y
    + 0)
  * (if valid_area inp x y then 1 else 0)

/-- Critical band mask: score at least 80, on the valid area. -/
def critical_priority (inp : ScoreInputs) (x y : ℕ) : Bool :=
  decide (80 ≤ enhanced_priority inp x y) && valid_area inp x y

/-- High band mask: score in 60..80, on the valid area. -/
def high_priority (inp : ScoreInputs) (x y : ℕ) : Bool :=
  decide (60 ≤ enhanced_priority inp x y) && decide (enhanced_priority inp x y < 80)
    && valid_area inp x y

/-- Medium band mask: score in 40..60, on the valid area. -/
def medium_priority (inp : ScoreInputs) (x y : ℕ) : Bool :=
  decide (40 ≤ enhanced_priority inp x y) && decide (enhanced_priority inp x y < 60)
    && valid_area inp x y

/-- Low band mask: score strictly positive and below 40, on the valid
area. -/
def low_priority (inp : ScoreInputs) (x y : ℕ) : Bool :=
  decide (0 < enhanced_priority inp x y) && decide (enhanced_priority inp x y < 40)
    && valid_area inp x y

/-! ## GeometryTransformer.filter_streets_by_type -/

/-- Value of the highway tag carried by a street row: absent, a single
string, or a list of strings. -/
inductive TagVal where
  | missing : TagVal
  | single (s : String) : TagVal
  | multi (l : List String) : TagVal
deriving DecidableEq

/-- A street row; only the highway tag is inspected by the classifier. -/
structure Street where
  highway : TagVal
deriving DecidableEq

/-- Embedding of GeometryTransformer._get_highway_type: take the tag
value, using only the first element of a multi-valued tag, and none
when it is absent or an empty list. -/
def get_highway_type : TagVal → Option String
  | TagVal.missing => none
  | TagVal.single s => some s
  | TagVal.multi [] => none
  | TagVal.multi (s :: _) => some s

/-- Fixed pedestrian-priority set from config.settings. -/
def PEDESTRIAN_PRIORITY_TYPES : List String :=
  ["footway", "pedestrian", "living_street", "path", "steps"]

/-- Fixed low-traffic set from config.settings. -/
def LOW_TRAFFIC_TYPES : List String :=
  ["residential", "tertiary", "unclassified", "service"]

/-- Fixed medium-traffic set from config.settings. -/
def MEDIUM_TRAFFIC_TYPES : List String :=
  ["secondary", "secondary_link"]

/-- Fixed high-traffic set from config.settings. -/
def HIGH_TRAFFIC_TYPES : List String :=
  ["primary", "primary_link", "trunk", "trunk_link", "motorway", "motorway_link"]

/-- Python membership test highway_type in SET, where highway_type may
be None (which is in no set of strings). -/
def optMem (t : Option String) (l : List String) : Bool :=
  match t with
  | none => false
  | some s => l.contains s

/-- The four output lists of the classifier. -/
structure StreetClasses where
  pedestrian : List Street
  low_traffic : List Street
  medium_traffic : List Street
  high_traffic : List Street
deriving DecidableEq

/-- One iteration of the classification loop: the street is appended to
exactly one of the four lists, checked in source order, with the final
else branch defaulting to low traffic. -/
def classifyStep (acc : StreetClasses) (s : Street) : StreetClasses :=
  if optMem (get_highway_type s.highway) PEDESTRIAN_PRIORITY_TYPES then
    { acc with pedestrian := acc.pedestrian ++ [s] }
  else if optMem (get_highway_type s.highway) LOW_TRAFFIC_TYPES then
    { acc with low_traffic := acc.low_traffic ++ [s] }
  else if optMem (get_highway_type s.highway) MEDIUM_TRAFFIC_TYPES then
    { acc with medium_traffic := acc.medium_traffic ++ [s] }
  else if optMem (get_highway_type s.highway) HIGH_TRAFFIC_TYPES then
    { acc with high_traffic := acc.high_traffic ++ [s] }
  else
    { acc with low_traffic := acc.low_traffic ++ [s] }

/-- Embedding of GeometryTransformer.filter_streets_by_type. The
empty-input early return yields the same empty four lists as the
fold. -/
def filter_streets_by_type (streets : List Street) : StreetClasses :=
  streets.foldl classifyStep ⟨[], [], [], []⟩

/-! ## MaskGenerator.create_mask -/

/-- Vector geometry as dispatched on by MaskGenerator.create_mask; the
coordinate pairs are (lon, lat) vertex lists of exterior rings. -/
inductive PyGeometry where
  | polygon (exterior : List (ℚ × ℚ)) : PyGeometry
  | multiPolygon (polys : List (List (ℚ × ℚ))) : PyGeometry
  | lineString (pts : List (ℚ × ℚ)) : PyGeometry
  | other : PyGeometry

/-- Embedding of MaskGenerator.create_mask. The PIL polygon fill and
the shapely small-degree line buffer are external engines and enter as
the parameters fill (paints one projected ring onto a boolean grid) and
lineBuffer (exterior ring of geom.buffer(0.00005)); the empty-collection
short circuit at the top of the source is independent of both. Returns
the drawn grid rendered as rows of booleans together with the number of
rings actually drawn; rings with fewer than 3 projected points are
skipped silently. -/
def create_mask (fill : List (ℤ × ℤ) → (ℕ → ℕ → Bool) → (ℕ → ℕ → Bool))
    (lineBuffer : List (ℚ × ℚ) → List (ℚ × ℚ))
    (geoms : List PyGeometry) (img_width img_height : ℕ) (b : Bounds) :
    List (List Bool) × ℕ :=
  if geoms.length = 0 then
    (List.replicate img_height (List.replicate img_width false), 0)
  else
    let polysOf : PyGeometry → List (List (ℚ × ℚ)) := fun g =>
      match g with
      | PyGeometry.multiPolygon ps => ps
      | PyGeometry.polygon e => [e]
      | PyGeometry.lineString pts => [lineBuffer pts]
      | PyGeometry.other => []
    let res := geoms.foldl
      (fun acc g =>
        (polysOf g).foldl
          (fun acc2 ring =>
            let pix := ring.map (fun q =>
              latlon_to_pixel q.2 q.1 b.min_lat b.max_lat b.min_lon b.max_lon
                img_height img_width)
            if 3 ≤ pix.length then (fill pix acc2.1, acc2.2 + 1) else acc2)
          acc)
      ((fun _ _ => false), 0)
    ((List.range img_height).map (fun y => (List.range img_width).map (fun x => res.1 x y)),
      res.2)

/-! ## Spot extraction (Visualizer._extract_critical_spots) -/

/-- Python round with banker rounding of exact halves, on a rational. -/
def pyRound (q : ℚ) : ℤ :=
  let f := ⌊q⌋
  let r := q - f
  if r < 1/2 then f
  else if (1 : ℚ)/2 < r then f + 1
  else if f % 2 = 0 then f else f + 1

/-- Python round(q, ndigits) on a rational. -/
def pyRoundTo (ndigits : ℕ) (q : ℚ) : ℚ :=
  (pyRound (q * 10 ^ ndigits) : ℚ) / 10 ^ ndigits

/-- The eight neighbor offsets of 8-connectivity. -/
def nbrOffsets : List (ℤ × ℤ) :=
  [(-1, -1), (0, -1), (1, -1), (-1, 0), (1, 0), (-1, 1), (0, 1), (1, 1)]

/-- In-grid 8-neighbors of a pixel. -/
def neighbors8 (width height : ℕ) (p : ℕ × ℕ) : List (ℕ × ℕ) :=
  nbrOffsets.filterMap (fun o =>
    let nx := (p.1 : ℤ) + o.1
    let ny := (p.2 : ℤ) + o.2
    if 0 ≤ nx ∧ nx < width ∧ 0 ≤ ny ∧ ny < height then some (nx.toNat, ny.toNat)
    else none)

/-- Breadth-first flood fill collecting one 8-connected component of
the mask, with explicit fuel (the caller passes more fuel than the
total number of queue pushes that can occur). -/
def flood (width height : ℕ) (mask : ℕ → ℕ → Bool) :
    ℕ → List (ℕ × ℕ) → List (ℕ × ℕ) → List (ℕ × ℕ)
  | 0, _, comp => comp
  | _ + 1, [], comp => comp
  | fuel + 1, p :: queue, comp =>
      if p ∈ comp then flood width height mask fuel queue comp
      else
        flood width height mask fuel
          (queue ++ (neighbors8 width height p).filter (fun q => mask q.1 q.2))
          (comp ++ [p])

/-- Connected component labeling with 8-connectivity, the semantics of
cv2.connectedComponentsWithStats on the critical mask: components are
listed in raster-scan encounter order of their first pixel, so the
label of a component is its position in this list plus one (label 0 is
the background). -/
def connectedComponents (width height : ℕ) (mask : ℕ → ℕ → Bool) :
    List (List (ℕ × ℕ)) :=
  (scanPixels width height).foldl
    (fun comps p =>
      if mask p.1 p.2 && !(comps.any (fun c => decide (p ∈ c))) then
        comps ++ [flood width height mask (9 * (width * height) + 1) [p] []]
      else comps)
    []

/-- One extracted critical spot record. -/
structure CriticalSpot where
  spot_id : ℕ
  latitude : ℚ
  longitude : ℚ
  priority_score : ℚ
  area_m2 : ℚ
  area_pixels : ℕ
deriving DecidableEq

/-- The spot record built from one surviving component: the centroid
(the mean pixel position, as computed by cv2) is inverse-projected,
the mean score over the component is rounded to one decimal into the
priority_score field, and the area is converted to square meters by
0.6 * 0.6 = 9/25 and rounded to one decimal. -/
def spotOfComponent (score : ℕ → ℕ → ℚ) (b : Bounds) (img_height img_width : ℕ)
    (idx : ℕ) (comp : List (ℕ × ℕ)) : CriticalSpot where
  spot_id := idx
  latitude := pyRoundTo 8 (pixel_to_latlon ((comp.map (fun p => (p.1 : ℚ))).sum / comp.length)
    ((comp.map (fun p => (p.2 : ℚ))).sum / comp.length)
    b.min_lat b.max_lat b.min_lon b.max_lon img_height img_width).1
  longitude := pyRoundTo 8 (pixel_to_latlon ((comp.map (fun p => (p.1 : ℚ))).sum / comp.length)
    ((comp.map (fun p => (p.2 : ℚ))).sum / comp.length)
    b.min_lat b.max_lat b.min_lon b.max_lon img_height img_width).2
  priority_score := pyRoundTo 1 ((comp.map (fun p => score p.1 p.2)).sum / comp.length)
  area_m2 := pyRoundTo 1 ((comp.length : ℚ) * (9/25))
  area_pixels := comp.length

/-- The unsorted spot list: components in label order, those with area
below 20 pixels discarded. -/
def spotsUnsorted (critical : ℕ → ℕ → Bool) (score : ℕ → ℕ → ℚ)
    (b : Bounds) (img_height img_width : ℕ) : List CriticalSpot :=
  (connectedComponents img_width img_height critical).enum.filterMap
    (fun ic =>
      if ic.2.length < 20 then none
      else some (spotOfComponent score b img_height img_width (ic.1 + 1) ic.2))

/-- Comparator of the final sort: priority_score descending, ties by
label ascending. -/
def spotLE (a c : CriticalSpot) : Bool :=
  decide (c.priority_score < a.priority_score) ||
    (decide (c.priority_score = a.priority_score) && decide (a.spot_id ≤ c.spot_id))

/-- Embedding of Visualizer._extract_critical_spots. The Python stable
sort by the priority_score field descending is embedded as a merge sort
on the lexicographic key (rounded score descending, then label
ascending): on a list with strictly increasing distinct labels, a
stable sort by score descending and a sort by this total lexicographic
key produce the same, uniquely determined output. -/
def extract_critical_spots (critical : ℕ → ℕ → Bool) (score : ℕ → ℕ → ℚ)
    (b : Bounds) (img_height img_width : ℕ) : List CriticalSpot :=
  (spotsUnsorted critical score b img_height img_width).mergeSort spotLE

/-! ## Concrete inputs used by the witnesses -/

/-- Small concrete scorer input used to instantiate the general
theorems. -/
def demoInputs : ScoreInputs where
  width := 4
  height := 4
  shadow_intensity := fun _ _ => 1/2
  sidewalk_mask := fun x y => decide (x = 0 ∧ y = 0)
  building_mask := fun x y => decide (x = 3 ∧ y = 3)
  street_mask := fun _ _ => false
  vegetation_mask := fun _ _ => false
  falloff := fun s => 1 / (s + 1)
  amenities := [(1/2, 1/2)]
  bounds := ⟨0, 0, 1, 1⟩

/-- Concrete positive strictly decreasing falloff used by witnesses in
place of the Gaussian. -/
def demoFalloff : ℕ → ℚ := fun s => 1 / (s + 1)

/-- The one spot extracted from a fully true 3 by 7 critical mask with
constant score 85, used by the C7 counterexample and witness. -/
def demoSpot : CriticalSpot :=
  ⟨1, 66666667/100000000, 42857143/100000000, 85, 38/5, 21⟩

/-! ## Helper lemmas -/

theorem mem_scanPixels {width height x y : ℕ} :
    (x, y) ∈ scanPixels width height ↔ x < width ∧ y < height := by
  constructor
  · intro h
    simp only [scanPixels, List.mem_flatMap, List.mem_map, List.mem_range] at h
    obtain ⟨b, hb, a, ha, e⟩ := h
    obtain ⟨e1, e2⟩ := Prod.mk.injEq .. ▸ e
    constructor
    · exact e1 ▸ ha
    · exact e2 ▸ hb
  · rintro ⟨hx, hy⟩
    simp only [scanPixels, List.mem_flatMap, List.mem_map, List.mem_range]
    exact ⟨y, hy, x, hx, rfl⟩

theorem le_foldr_max {l : List ℚ} {a : ℚ} (h : a ∈ l) (b : ℚ) :
    a ≤ l.foldr max b := by
  induction l with
  | nil => cases h
  | cons c t ih =>
    rcases List.mem_cons.mp h with rfl | h2
    · exact le_max_left _ _
    · exact (ih h2).trans (le_max_right _ _)

theorem foldr_max_le {l : List ℚ} {b c : ℚ} (hb : b ≤ c)
    (h : ∀ a ∈ l, a ≤ c) : l.foldr max b ≤ c := by
  induction l with
  | nil => exact hb
  | cons d t ih =>
    exact max_le (h d (by simp)) (ih (fun a ha => h a (List.mem_cons_of_mem _ ha)))

theorem sidewalkTier_cases (d2 : ℕ) :
    sidewalkTier d2 = 35 ∨ sidewalkTier d2 = 20 ∨ sidewalkTier d2 = 5 := by
  unfold sidewalkTier applyTier
  split_ifs with h1 h2 h3 <;> simp_all

theorem buildingTier_cases (d2 : ℕ) :
    buildingTier d2 = 25 ∨ buildingTier d2 = 15 ∨ buildingTier d2 = 10 ∨
      buildingTier d2 = 5 ∨ buildingTier d2 = 0 := by
  unfold buildingTier applyTier
  split_ifs <;> simp_all

theorem sun_priority_cases (si : ℕ → ℕ → ℚ) (x y : ℕ) :
    sun_priority si x y = 20 ∨ sun_priority si x y = 12 ∨
      sun_priority si x y = 5 := by
  unfold sun_priority applyTier
  split_ifs with h1 h2 h3 <;> simp_all

theorem sidewalk_priority_bounds (width height : ℕ) (m : ℕ → ℕ → Bool)
    (x y : ℕ) : 0 ≤ sidewalk_priority width height m x y ∧
      sidewalk_priority width height m x y ≤ 35 := by
  unfold sidewalk_priority
  split_ifs
  · norm_num
  · rcases sidewalkTier_cases (sqDistTo (truePixels width height m) (x, y)) with
      h | h | h <;> rw [h] <;> norm_num

theorem building_priority_bounds (width height : ℕ) (m : ℕ → ℕ → Bool)
    (x y : ℕ) : 0 ≤ building_priority width height m x y ∧
      building_priority width height m x y ≤ 25 := by
  unfold building_priority
  split_ifs
  · norm_num
  · rcases buildingTier_cases (sqDistTo (truePixels width height m) (x, y)) with
      h | h | h | h | h <;> rw [h] <;> norm_num

theorem sun_priority_bounds (si : ℕ → ℕ → ℚ) (x y : ℕ) :
    0 ≤ sun_priority si x y ∧ sun_priority si x y ≤ 20 := by
  rcases sun_priority_cases si x y with h | h | h <;> rw [h] <;> norm_num

theorem density_map_nonneg {g : ℕ → ℚ} (hg : ∀ s, 0 ≤ g s)
    (pix : List (ℤ × ℤ)) (x y : ℕ) : 0 ≤ density_map g pix x y := by
  refine List.sum_nonneg ?_
  intro a ha
  obtain ⟨p, _, rfl⟩ := List.mem_map.mp ha
  unfold amenityContrib kernelVal
  split_ifs <;> first | exact hg _ | norm_num

theorem amenity_priority_bounds (g : ℕ → ℚ) (amenities : List (ℚ × ℚ))
    (b : Bounds) (width height x y : ℕ) (hg : ∀ s, 0 ≤ g s)
    (hx : x < width) (hy : y < height) :
    0 ≤ amenity_priority g amenities b width height x y ∧
      amenity_priority g amenities b width height x y ≤ 10 := by
  have hd0 : 0 ≤ density_map g (amenityPixels amenities b width height) x y :=
    density_map_nonneg hg _ x y
  have hdM : density_map g (amenityPixels amenities b width height) x y ≤
      gridMax width height (density_map g (amenityPixels amenities b width height)) := by
    refine le_foldr_max ?_ 0
    exact List.mem_map.mpr ⟨(x, y), mem_scanPixels.mpr ⟨hx, hy⟩, rfl⟩
  unfold amenity_priority
  split_ifs with hA hM
  · norm_num
  · -- normalization branch: the value at an in-grid pixel is at most the
    -- grid maximum, so the normalized value is in 0..1
    have h1 : density_map g (amenityPixels amenities b width height) x y /
        gridMax width height (density_map g (amenityPixels amenities b width height)) ≤ 1 :=
      (div_le_one hM).mpr hdM
    constructor
    · positivity
    · linarith
  · -- no normalization: the maximum is not positive, and every in-grid
    -- value is nonnegative and bounded by it, hence zero
    have h0 : density_map g (amenityPixels amenities b width height) x y = 0 :=
      le_antisymm (by push_neg at hM; linarith) hd0
    rw [h0]
    norm_num

/-! ## Claim C10 -/

/-- Claim C10: if the input mask has no true pixel inside the grid, the
sidewalk proximity component and the building cooling component are
identically zero over the whole grid (the source short-circuits before
the distance tiering, so the far tier value 5 is never produced). -/
theorem empty_mask_zero_components (width height : ℕ) (mask : ℕ → ℕ → Bool)
    (h : ∀ x y, x < width → y < height → mask x y = false) (x y : ℕ) :
    sidewalk_priority width height mask x y = 0 ∧
      building_priority width height mask x y = 0 := by
  have hT : truePixels width height mask = [] := by
    refine List.filter_eq_nil_iff.mpr ?_
    rintro ⟨a, c⟩ hp
    have := mem_scanPixels.mp hp
    simp [h a c this.1 this.2]
  constructor <;> simp [sidewalk_priority, building_priority, hT]

/-- Witness for C10 at a concrete all-false mask. -/
theorem empty_mask_zero_components_witness :
    sidewalk_priority 3 3 (fun _ _ => false) 1 2 = 0 ∧
      building_priority 3 3 (fun _ _ => false) 1 2 = 0 :=
  empty_mask_zero_components 3 3 (fun _ _ => false) (fun _ _ _ _ => rfl) 1 2

/-! ## Claim C1 -/

/-- Claim C1: the four band masks of PriorityScorer.calculate are
pairwise disjoint and their union is exactly the set of pixels with a
strictly positive returned score satisfying the validity predicate;
critical is score at least 80, high is 60..80, medium is 40..60, low is
0..40, each intersected with the valid area. -/
theorem bands_partition (inp : ScoreInputs) (x y : ℕ) :
    (¬(critical_priority inp x y = true ∧ high_priority inp x y = true) ∧
     ¬(critical_priority inp x y = true ∧ medium_priority inp x y = true) ∧
     ¬(critical_priority inp x y = true ∧ low_priority inp x y = true) ∧
     ¬(high_priority inp x y = true ∧ medium_priority inp x y = true) ∧
     ¬(high_priority inp x y = true ∧ low_priority inp x y = true) ∧
     ¬(medium_priority inp x y = true ∧ low_priority inp x y = true)) ∧
    ((critical_priority inp x y = true ∨ high_priority inp x y = true ∨
        medium_priority inp x y = true ∨ low_priority inp x y = true) ↔
      (0 < enhanced_priority inp x y ∧ valid_area inp x y = true)) := by
  refine ⟨⟨?_, ?_, ?_, ?_, ?_, ?_⟩, ?_⟩
  · rintro ⟨hc, hh⟩
    simp only [critical_priority, Bool.and_eq_true, decide_eq_true_eq] at hc
    simp only [high_priority, Bool.and_eq_true, decide_eq_true_eq] at hh
    linarith [hc.1, hh.1.2]
  · rintro ⟨hc, hm⟩
    simp only [critical_priority, Bool.and_eq_true, decide_eq_true_eq] at hc
    simp only [medium_priority, Bool.and_eq_true, decide_eq_true_eq] at hm
    linarith [hc.1, hm.1.2]
  · rintro ⟨hc, hl⟩
    simp only [critical_priority, Bool.and_eq_true, decide_eq_true_eq] at hc
    simp only [low_priority, Bool.and_eq_true, decide_eq_true_eq] at hl
    linarith [hc.1, hl.1.2]
  · rintro ⟨hh, hm⟩
    simp only [high_priority, Bool.and_eq_true, decide_eq_true_eq] at hh
    simp only [medium_priority, Bool.and_eq_true, decide_eq_true_eq] at hm
    linarith [hh.1.1, hm.1.2]
  · rintro ⟨hh, hl⟩
    simp only [high_priority, Bool.and_eq_true, decide_eq_true_eq] at hh
    simp only [low_priority, Bool.and_eq_true, decide_eq_true_eq] at hl
    linarith [hh.1.1, hl.1.2]
  · rintro ⟨hm, hl⟩
    simp only [medium_priority, Bool.and_eq_true, decide_eq_true_eq] at hm
    simp only [low_priority, Bool.and_eq_true, decide_eq_true_eq] at hl
    linarith [hm.1.1, hl.1.2]
  · constructor
    · intro h
      rcases h with hc | hh | hm | hl
      · simp only [critical_priority, Bool.and_eq_true, decide_eq_true_eq] at hc
        exact ⟨by linarith [hc.1], hc.2⟩
      · simp only [high_priority, Bool.and_eq_true, decide_eq_true_eq] at hh
        exact ⟨by linarith [hh.1.1], hh.2⟩
      · simp only [medium_priority, Bool.and_eq_true, decide_eq_true_eq] at hm
        exact ⟨by linarith [hm.1.1], hm.2⟩
      · simp only [low_priority, Bool.and_eq_true, decide_eq_true_eq] at hl
        exact ⟨hl.1.1, hl.2⟩
    · rintro ⟨hpos, hv⟩
      simp only [critical_priority, high_priority, medium_priority, low_priority,
        Bool.and_eq_true, decide_eq_true_eq]
      rcases le_or_lt 80 (enhanced_priority inp x y) with h | h
      · exact Or.inl ⟨h, hv⟩
      rcases le_or_lt 60 (enhanced_priority inp x y) with h2 | h2
      · exact Or.inr (Or.inl ⟨⟨h2, h⟩, hv⟩)
      rcases le_or_lt 40 (enhanced_priority inp x y) with h3 | h3
      · exact Or.inr (Or.inr (Or.inl ⟨⟨h3, h2⟩, hv⟩))
      · exact Or.inr (Or.inr (Or.inr ⟨⟨hpos, h3⟩, hv⟩))

/-- Witness for C1 at a concrete input and pixel. -/
theorem bands_partition_witness :
    ¬(critical_priority demoInputs 1 1 = true ∧
        high_priority demoInputs 1 1 = true) :=
  (bands_partition demoInputs 1 1).1.1

/-! ## Claim C2 -/

/-- Claim C2: at every pixel of the grid, the total priority score of
PriorityScorer.calculate lies in the closed interval 0..100, whatever
the shadow intensity field, the masks, the amenity list and the bounds.
The hypothesis on the falloff (nonnegativity) holds for the Gaussian it
abstracts. -/
theorem score_in_range (inp : ScoreInputs) (x y : ℕ)
    (hg : ∀ s, 0 ≤ inp.falloff s) (hx : x < inp.width) (hy : y < inp.height) :
    0 ≤ enhanced_priority inp x y ∧ enhanced_priority inp x y ≤ 100 := by
  obtain ⟨hs0, hs1⟩ := sidewalk_priority_bounds inp.width inp.height inp.sidewalk_mask x y
  obtain ⟨hb0, hb1⟩ := building_priority_bounds inp.width inp.height inp.building_mask x y
  obtain ⟨hu0, hu1⟩ := sun_priority_bounds inp.shadow_intensity x y
  obtain ⟨ha0, ha1⟩ := amenity_priority_bounds inp.falloff inp.amenities inp.bounds
    inp.width inp.height x y hg hx hy
  unfold enhanced_priority
  split_ifs <;> constructor <;> linarith

theorem demoInputs_falloff_nonneg (s : ℕ) : 0 ≤ demoInputs.falloff s := by
  show (0 : ℚ) ≤ 1 / ((s : ℚ) + 1)
  positivity

/-- Witness for C2 at a concrete input and pixel. -/
theorem score_in_range_witness :
    0 ≤ enhanced_priority demoInputs 1 1 ∧ enhanced_priority demoInputs 1 1 ≤ 100 :=
  score_in_range demoInputs 1 1 demoInputs_falloff_nonneg (by decide) (by decide)

/-! ## Claim C3 -/

/-- Floor error bound used for the geo round trip: scaling a ratio t by
n pixels, flooring, and mapping back to the geographic range d changes
the value by at most d / n. -/
theorem floor_ratio_err (t d : ℚ) (n : ℕ) (hd : 0 < d) (hn : (0 : ℚ) < n) :
    |(⌊t * n⌋ : ℚ) / n * d - t * d| ≤ d / n := by
  have h1 : (⌊t * n⌋ : ℚ) ≤ t * n := Int.floor_le _
  have h2 : t * n < (⌊t * n⌋ : ℚ) + 1 := Int.lt_floor_add_one _
  have e : (⌊t * n⌋ : ℚ) / n * d - t * d = ((⌊t * n⌋ : ℚ) - t * n) * (d / n) := by
    field_simp
    ring
  rw [abs_le, e]
  have hdn : 0 < d / n := div_pos hd hn
  constructor
  · nlinarith
  · nlinarith

/-- Counterexample to C3 as stated: with bounds 0..1 in both axes and a
10 by 10 grid, the longitude 9/100 gives a scaled normalized coordinate
of 9/10, whose nearest integer is 1, while the code truncates it to 0.
The claimed rounding projection therefore differs from the code. -/
theorem latlon_to_pixel_not_round :
    (latlon_to_pixel (1/2) (9/100) 0 1 0 1 10 10).1 = 0 ∧
      round (((9 : ℚ)/100 - 0) / (1 - 0) * 10) = 1 := by
  constructor
  · norm_num [latlon_to_pixel, pyTrunc]
  · norm_num [round_eq]

/-- Claim C3 amended: for bounds with minLon below maxLon and minLat
below maxLat and a point with lon at least minLon and lat at most
maxLat, the projection truncates the scaled normalized coordinate
toward zero, that is, it returns the greatest integers bounded by the
scaled normalized coordinates (not the nearest integers): with
qx = (lon - minLon) / (maxLon - minLon) * width and
qy = (maxLat - lat) / (maxLat - minLat) * height, the returned pair
(x, y) satisfies x LE qx < x + 1 and y LE qy < y + 1, with top-left
origin and y growing downward. -/
theorem latlon_to_pixel_truncates (lat lon min_lat max_lat min_lon max_lon : ℚ)
    (img_height img_width : ℕ)
    (hlon : min_lon < max_lon) (hlat : min_lat < max_lat)
    (hlo : min_lon ≤ lon) (hla : lat ≤ max_lat) :
    (((latlon_to_pixel lat lon min_lat max_lat min_lon max_lon img_height img_width).1 : ℚ) ≤
        (lon - min_lon) / (max_lon - min_lon) * img_width ∧
      (lon - min_lon) / (max_lon - min_lon) * img_width <
        (latlon_to_pixel lat lon min_lat max_lat min_lon max_lon img_height img_width).1 + 1) ∧
    (((latlon_to_pixel lat lon min_lat max_lat min_lon max_lon img_height img_width).2 : ℚ) ≤
        (max_lat - lat) / (max_lat - min_lat) * img_height ∧
      (max_lat - lat) / (max_lat - min_lat) * img_height <
        (latlon_to_pixel lat lon min_lat max_lat min_lon max_lon img_height img_width).2 + 1) := by
  have hqx : 0 ≤ (lon - min_lon) / (max_lon - min_lon) * img_width := by
    apply mul_nonneg (div_nonneg (by linarith) (by linarith)) (Nat.cast_nonneg _)
  have hqy : 0 ≤ (max_lat - lat) / (max_lat - min_lat) * img_height := by
    apply mul_nonneg (div_nonneg (by linarith) (by linarith)) (Nat.cast_nonneg _)
  unfold latlon_to_pixel pyTrunc
  simp only [hqx, hqy, if_pos]
  refine ⟨⟨Int.floor_le _, ?_⟩, Int.floor_le _, ?_⟩ <;>
    · push_cast
      exact Int.lt_floor_add_one _

/-- Witness for the amended C3 at a concrete in-bounds point. -/
theorem latlon_to_pixel_truncates_witness :
    (((latlon_to_pixel (1/2) (9/100) 0 1 0 1 10 10).1 : ℚ) ≤
        ((9 : ℚ)/100 - 0) / (1 - 0) * 10 ∧
      ((9 : ℚ)/100 - 0) / (1 - 0) * 10 <
        (latlon_to_pixel (1/2) (9/100) 0 1 0 1 10 10).1 + 1) ∧
    (((latlon_to_pixel (1/2) (9/100) 0 1 0 1 10 10).2 : ℚ) ≤
        (1 - (1 : ℚ)/2) / (1 - 0) * 10 ∧
      (1 - (1 : ℚ)/2) / (1 - 0) * 10 <
        (latlon_to_pixel (1/2) (9/100) 0 1 0 1 10 10).2 + 1) :=
  latlon_to_pixel_truncates (1/2) (9/100) 0 1 0 1 10 10
    (by norm_num) (by norm_num) (by norm_num) (by norm_num)

/-! ## Claim C4 -/

/-- Claim C4: for any point strictly inside the bounds, projecting to
pixel space and back returns a point within one pixel of angular
resolution of the original, in both axes. -/
theorem roundtrip_within_pixel (lat lon : ℚ) (b : Bounds) (img_height img_width : ℕ)
    (hW : 0 < img_width) (hH : 0 < img_height)
    (h1 : b.min_lon < lon) (h2 : lon < b.max_lon)
    (h3 : b.min_lat < lat) (h4 : lat < b.max_lat) :
    |(pixel_to_latlon
        ((latlon_to_pixel lat lon b.min_lat b.max_lat b.min_lon b.max_lon img_height img_width).1 : ℚ)
        ((latlon_to_pixel lat lon b.min_lat b.max_lat b.min_lon b.max_lon img_height img_width).2 : ℚ)
        b.min_lat b.max_lat b.min_lon b.max_lon img_height img_width).1 - lat| ≤
      (b.max_lat - b.min_lat) / img_height ∧
    |(pixel_to_latlon
        ((latlon_to_pixel lat lon b.min_lat b.max_lat b.min_lon b.max_lon img_height img_width).1 : ℚ)
        ((latlon_to_pixel lat lon b.min_lat b.max_lat b.min_lon b.max_lon img_height img_width).2 : ℚ)
        b.min_lat b.max_lat b.min_lon b.max_lon img_height img_width).2 - lon| ≤
      (b.max_lon - b.min_lon) / img_width := by
  have hdx : (0 : ℚ) < b.max_lon - b.min_lon := by linarith
  have hdy : (0 : ℚ) < b.max_lat - b.min_lat := by linarith
  have hWQ : (0 : ℚ) < img_width := by exact_mod_cast hW
  have hHQ : (0 : ℚ) < img_height := by exact_mod_cast hH
  have hqx : 0 ≤ (lon - b.min_lon) / (b.max_lon - b.min_lon) * img_width := by
    apply mul_nonneg (div_nonneg (by linarith) (by linarith)) (Nat.cast_nonneg _)
  have hqy : 0 ≤ (b.max_lat - lat) / (b.max_lat - b.min_lat) * img_height := by
    apply mul_nonneg (div_nonneg (by linarith) (by linarith)) (Nat.cast_nonneg _)
  unfold latlon_to_pixel pyTrunc
  simp only [hqx, hqy, if_pos]
  unfold pixel_to_latlon
  constructor
  · -- latitude axis: the returned latitude differs from the original by
    -- the floor error of the scaled ratio, mapped back to degrees
    have main := floor_ratio_err ((b.max_lat - lat) / (b.max_lat - b.min_lat))
      (b.max_lat - b.min_lat) img_height hdy hHQ
    have ht : (b.max_lat - lat) / (b.max_lat - b.min_lat) * (b.max_lat - b.min_lat) =
        b.max_lat - lat := div_mul_cancel₀ _ (ne_of_gt hdy)
    have eq1 : b.max_lat -
        (⌊(b.max_lat - lat) / (b.max_lat - b.min_lat) * img_height⌋ : ℚ) / img_height *
          (b.max_lat - b.min_lat) - lat =
        -((⌊(b.max_lat - lat) / (b.max_lat - b.min_lat) * img_height⌋ : ℚ) / img_height *
            (b.max_lat - b.min_lat) -
          (b.max_lat - lat) / (b.max_lat - b.min_lat) * (b.max_lat - b.min_lat)) := by
      rw [ht]
      ring
    rw [eq1, abs_neg]
    exact main
  · -- longitude axis
    have main := floor_ratio_err ((lon - b.min_lon) / (b.max_lon - b.min_lon))
      (b.max_lon - b.min_lon) img_width hdx hWQ
    have ht : (lon - b.min_lon) / (b.max_lon - b.min_lon) * (b.max_lon - b.min_lon) =
        lon - b.min_lon := div_mul_cancel₀ _ (ne_of_gt hdx)
    have eq1 : b.min_lon +
        (⌊(lon - b.min_lon) / (b.max_lon - b.min_lon) * img_width⌋ : ℚ) / img_width *
          (b.max_lon - b.min_lon) - lon =
        (⌊(lon - b.min_lon) / (b.max_lon - b.min_lon) * img_width⌋ : ℚ) / img_width *
            (b.max_lon - b.min_lon) -
          (lon - b.min_lon) / (b.max_lon - b.min_lon) * (b.max_lon - b.min_lon) := by
      rw [ht]
      ring
    rw [eq1]
    exact main

/-- Witness for C4 at a concrete point strictly inside concrete bounds. -/
theorem roundtrip_within_pixel_witness :
    |(pixel_to_latlon
        ((latlon_to_pixel (1/2) (9/100) 0 1 0 1 10 10).1 : ℚ)
        ((latlon_to_pixel (1/2) (9/100) 0 1 0 1 10 10).2 : ℚ)
        0 1 0 1 10 10).1 - 1/2| ≤ ((1 : ℚ) - 0) / 10 ∧
    |(pixel_to_latlon
        ((latlon_to_pixel (1/2) (9/100) 0 1 0 1 10 10).1 : ℚ)
        ((latlon_to_pixel (1/2) (9/100) 0 1 0 1 10 10).2 : ℚ)
        0 1 0 1 10 10).2 - 9/100| ≤ ((1 : ℚ) - 0) / 10 :=
  roundtrip_within_pixel (1/2) (9/100) ⟨0, 0, 1, 1⟩ 10 10
    (by norm_num) (by norm_num) (by norm_num) (by norm_num) (by norm_num) (by norm_num)

/-! ## Claim C6 -/

/-- Total number of streets held by the four classifier lists. -/
def classCount (c : StreetClasses) : ℕ :=
  c.pedestrian.length + c.low_traffic.length + c.medium_traffic.length +
    c.high_traffic.length

theorem classCount_classifyStep (acc : StreetClasses) (s : Street) :
    classCount (classifyStep acc s) = classCount acc + 1 := by
  unfold classifyStep classCount
  split_ifs <;> simp <;> omega

theorem classCount_foldl (streets : List Street) (acc : StreetClasses) :
    classCount (streets.foldl classifyStep acc) = classCount acc + streets.length := by
  induction streets generalizing acc with
  | nil => simp
  | cons s t ih =>
    rw [List.foldl_cons, ih, classCount_classifyStep]
    simp
    omega

theorem low_mem_classifyStep (acc : StreetClasses) (s t : Street)
    (h : s ∈ acc.low_traffic) : s ∈ (classifyStep acc t).low_traffic := by
  unfold classifyStep
  split_ifs <;> simp [h]

theorem low_mem_foldl (streets : List Street) (acc : StreetClasses) (s : Street)
    (h : s ∈ acc.low_traffic) : s ∈ (streets.foldl classifyStep acc).low_traffic := by
  induction streets generalizing acc with
  | nil => exact h
  | cons t r ih => exact ih _ (low_mem_classifyStep acc s t h)

theorem unknown_mem_low_foldl (streets : List Street) (acc : StreetClasses)
    (s : Street) (hs : s ∈ streets)
    (h1 : optMem (get_highway_type s.highway) PEDESTRIAN_PRIORITY_TYPES = false)
    (h2 : optMem (get_highway_type s.highway) LOW_TRAFFIC_TYPES = false)
    (h3 : optMem (get_highway_type s.highway) MEDIUM_TRAFFIC_TYPES = false)
    (h4 : optMem (get_highway_type s.highway) HIGH_TRAFFIC_TYPES = false) :
    s ∈ (streets.foldl classifyStep acc).low_traffic := by
  induction streets generalizing acc with
  | nil => cases hs
  | cons t r ih =>
    rcases List.mem_cons.mp hs with rfl | hmem
    · rw [List.foldl_cons]
      refine low_mem_foldl r _ s ?_
      unfold classifyStep
      rw [h1, h2, h3, h4]
      simp
    · exact ih _ hmem

/-- Claim C6: the street classifier produces a 4-way partition: the sum
of the four output counts equals the input count, and every street
whose first highway tag value lies in none of the four fixed type sets
is assigned to the low traffic tier (never dropped, never an error). -/
theorem filter_streets_partition (streets : List Street) :
    ((filter_streets_by_type streets).pedestrian.length +
      (filter_streets_by_type streets).low_traffic.length +
      (filter_streets_by_type streets).medium_traffic.length +
      (filter_streets_by_type streets).high_traffic.length = streets.length) ∧
    (∀ s ∈ streets,
      optMem (get_highway_type s.highway) PEDESTRIAN_PRIORITY_TYPES = false →
      optMem (get_highway_type s.highway) LOW_TRAFFIC_TYPES = false →
      optMem (get_highway_type s.highway) MEDIUM_TRAFFIC_TYPES = false →
      optMem (get_highway_type s.highway) HIGH_TRAFFIC_TYPES = false →
      s ∈ (filter_streets_by_type streets).low_traffic) := by
  constructor
  · have h := classCount_foldl streets ⟨[], [], [], []⟩
    unfold classCount at h
    simpa [filter_streets_by_type] using h
  · intro s hs h1 h2 h3 h4
    exact unknown_mem_low_foldl streets _ s hs h1 h2 h3 h4

/-- Concrete street list used by the C6 witness; the first entry
carries a tag outside all four fixed sets. -/
def demoStreets : List Street :=
  [⟨TagVal.single "driveway"⟩, ⟨TagVal.single "footway"⟩, ⟨TagVal.missing⟩,
    ⟨TagVal.multi ["secondary", "primary"]⟩]

/-- Witness for C6: on the concrete list the counts add up and the
unknown-tag street lands in the low traffic list. -/
theorem filter_streets_partition_witness :
    ((filter_streets_by_type demoStreets).pedestrian.length +
      (filter_streets_by_type demoStreets).low_traffic.length +
      (filter_streets_by_type demoStreets).medium_traffic.length +
      (filter_streets_by_type demoStreets).high_traffic.length = demoStreets.length) ∧
    (⟨TagVal.single "driveway"⟩ : Street) ∈ (filter_streets_by_type demoStreets).low_traffic :=
  ⟨(filter_streets_partition demoStreets).1,
    (filter_streets_partition demoStreets).2 ⟨TagVal.single "driveway"⟩
      (by decide) (by decide) (by decide) (by decide) (by decide)⟩

/-! ## Claim C9 -/

/-- Claim C9: rasterizing an empty geometry collection returns the
all-false mask of shape height by width together with a drawn count of
zero; the embedding is a total function, there is no exceptional
exit. -/
theorem create_mask_empty (fill : List (ℤ × ℤ) → (ℕ → ℕ → Bool) → (ℕ → ℕ → Bool))
    (lineBuffer : List (ℚ × ℚ) → List (ℚ × ℚ))
    (img_width img_height : ℕ) (b : Bounds) :
    create_mask fill lineBuffer [] img_width img_height b =
      (List.replicate img_height (List.replicate img_width false), 0) ∧
    (create_mask fill lineBuffer [] img_width img_height b).1.length = img_height ∧
    (∀ row ∈ (create_mask fill lineBuffer [] img_width img_height b).1,
      row.length = img_width ∧ ∀ v ∈ row, v = false) := by
  have h : create_mask fill lineBuffer [] img_width img_height b =
      (List.replicate img_height (List.replicate img_width false), 0) := by
    unfold create_mask
    simp
  refine ⟨h, ?_, ?_⟩
  · rw [h]
    simp
  · rw [h]
    intro row hrow
    have := List.eq_of_mem_replicate hrow
    subst this
    constructor
    · simp
    · intro v hv
      exact List.eq_of_mem_replicate hv

/-- Witness for C9 at concrete parameters. -/
theorem create_mask_empty_witness :
    create_mask (fun _ m => m) (fun r => r) [] 3 2 ⟨0, 0, 1, 1⟩ =
      (List.replicate 2 (List.replicate 3 false), 0) :=
  (create_mask_empty (fun _ m => m) (fun r => r) 3 2 ⟨0, 0, 1, 1⟩).1

/-! ## Claim C5 -/

/-- Claim C5: for a nonempty building mask, the building cooling
component at a pixel is the stated function of the euclidean pixel
distance to the nearest building pixel converted to meters at 0.6 per
pixel: 25 points on the closed band 5..15 m, 15 on 15..30 m, 10 on the
open band 0..5 m, 5 beyond 30 m, and exactly 0 at distance 0 (inside a
building). -/
theorem building_priority_tiers (width height : ℕ) (building_mask : ℕ → ℕ → Bool)
    (x y : ℕ) (hne : truePixels width height building_mask ≠ []) (d : ℝ)
    (hd : d = 3/5 * Real.sqrt (sqDistTo (truePixels width height building_mask) (x, y))) :
    ((building_priority width height building_mask x y : ℚ) : ℝ) =
      if 5 ≤ d ∧ d ≤ 15 then 25
      else if 15 < d ∧ d ≤ 30 then 15
      else if 0 < d ∧ d < 5 then 10
      else if 30 < d then 5
      else 0 := by
  have hne2 : (truePixels width height building_mask).isEmpty = false := by
    rcases h : (truePixels width height building_mask) with _ | ⟨p, t⟩
    · exact absurd h hne
    · rfl
  set n := sqDistTo (truePixels width height building_mask) (x, y) with hn
  have hs0 : (0 : ℝ) ≤ Real.sqrt n := Real.sqrt_nonneg _
  have hs2 : Real.sqrt (n : ℝ) ^ 2 = (n : ℝ) := Real.sq_sqrt (by positivity)
  have c1 : (5 ≤ d ∧ d ≤ 15) ↔ (625 ≤ 9 * n ∧ 9 * n ≤ 5625) := by
    subst hd
    constructor
    · rintro ⟨h1, h2⟩
      constructor
      · have hr : (625 : ℝ) ≤ 9 * n := by nlinarith
        exact_mod_cast hr
      · have hr : (9 : ℝ) * n ≤ 5625 := by nlinarith
        exact_mod_cast hr
    · rintro ⟨h1, h2⟩
      have h1R : (625 : ℝ) ≤ 9 * n := by exact_mod_cast h1
      have h2R : (9 : ℝ) * n ≤ 5625 := by exact_mod_cast h2
      constructor
      · nlinarith
      · nlinarith
  have c2 : (15 < d ∧ d ≤ 30) ↔ (5625 < 9 * n ∧ 9 * n ≤ 22500) := by
    subst hd
    constructor
    · rintro ⟨h1, h2⟩
      constructor
      · have hr : (5625 : ℝ) < 9 * n := by nlinarith
        exact_mod_cast hr
      · have hr : (9 : ℝ) * n ≤ 22500 := by nlinarith
        exact_mod_cast hr
    · rintro ⟨h1, h2⟩
      have h1R : (5625 : ℝ) < 9 * n := by exact_mod_cast h1
      have h2R : (9 : ℝ) * n ≤ 22500 := by exact_mod_cast h2
      constructor
      · nlinarith
      · nlinarith
  have c3 : (0 < d ∧ d < 5) ↔ (0 < 9 * n ∧ 9 * n < 625) := by
    subst hd
    constructor
    · rintro ⟨h1, h2⟩
      have hsq : 0 < Real.sqrt n := by nlinarith
      have hnp : (0 : ℝ) < n := by nlinarith
      constructor
      · have hr : (0 : ℝ) < 9 * n := by nlinarith
        exact_mod_cast hr
      · have hr : (9 : ℝ) * n < 625 := by nlinarith
        exact_mod_cast hr
    · rintro ⟨h1, h2⟩
      have h1R : (0 : ℝ) < 9 * n := by exact_mod_cast h1
      have h2R : (9 : ℝ) * n < 625 := by exact_mod_cast h2
      have hsq : 0 < Real.sqrt n := Real.sqrt_pos.mpr (by nlinarith)
      constructor
      · nlinarith
      · nlinarith
  have c4 : (30 < d) ↔ (22500 < 9 * n) := by
    subst hd
    constructor
    · intro h1
      have hr : (22500 : ℝ) < 9 * n := by nlinarith
      exact_mod_cast hr
    · intro h1
      have h1R : (22500 : ℝ) < 9 * n := by exact_mod_cast h1
      nlinarith
  simp only [building_priority, hne2, Bool.false_eq_true, if_false, ← hn]
  unfold buildingTier applyTier
  simp only [c1, c2, c3, c4]
  have htri : 9 * n = 0 ∨ (0 < 9 * n ∧ 9 * n < 625) ∨ (625 ≤ 9 * n ∧ 9 * n ≤ 5625) ∨
      (5625 < 9 * n ∧ 9 * n ≤ 22500) ∨ 22500 < 9 * n := by omega
  rcases htri with h | h | h | h | h <;>
    · split_ifs <;> first | omega | norm_num

/-- Witness for C5: a single building pixel at the origin of a 2 by 2
grid; the neighbor pixel is at pixel distance 1, that is 0.6 m, which
lies in the open 0..5 m band and scores 10. -/
theorem building_priority_tiers_witness :
    ((building_priority 2 2 (fun x y => decide (x = 0 ∧ y = 0)) 1 0 : ℚ) : ℝ) =
      if 5 ≤ (3 : ℝ)/5 ∧ (3 : ℝ)/5 ≤ 15 then 25
      else if 15 < (3 : ℝ)/5 ∧ (3 : ℝ)/5 ≤ 30 then 15
      else if 0 < (3 : ℝ)/5 ∧ (3 : ℝ)/5 < 5 then 10
      else if 30 < (3 : ℝ)/5 then 5
      else 0 :=
  building_priority_tiers 2 2 (fun x y => decide (x = 0 ∧ y = 0)) 1 0 (by decide)
    ((3 : ℝ)/5)
    (by rw [show sqDistTo (truePixels 2 2 (fun x y => decide (x = 0 ∧ y = 0))) (1, 0) = 1
          from by decide]
        norm_num)

/-! ## Claim C8 -/

theorem radius_px_eq : radius_px = 166 := by
  unfold radius_px pyTrunc
  norm_num
  rfl

theorem sqDistPix_self (p : ℕ × ℕ) : sqDistPix p p = 0 := by
  simp [sqDistPix]

theorem sqDistPix_eq_zero_iff (p q : ℕ × ℕ) : sqDistPix p q = 0 ↔ p = q := by
  unfold sqDistPix
  constructor
  · intro h
    have h1 : ((p.1 : ℤ) - q.1).natAbs = 0 := by nlinarith [sq_nonneg ((p.1 : ℤ) - q.1)]
    have h2 : ((p.2 : ℤ) - q.2).natAbs = 0 := by nlinarith [sq_nonneg ((p.2 : ℤ) - q.2)]
    have e1 : (p.1 : ℤ) = q.1 := by
      have := Int.natAbs_eq_zero.mp h1
      omega
    have e2 : (p.2 : ℤ) = q.2 := by
      have := Int.natAbs_eq_zero.mp h2
      omega
    have : p.1 = q.1 := by exact_mod_cast e1
    have : p.2 = q.2 := by exact_mod_cast e2
    cases p
    cases q
    simp_all
  · rintro rfl
    simp

/-- The contribution of one amenity, written as a pure function of the
squared pixel distance: inside the kernel circle the Chebyshev window
condition is implied by the circle condition, so the two guards of the
slice arithmetic collapse into one. -/
theorem amenityContrib_eq (g : ℕ → ℚ) (px py x y : ℕ) :
    amenityContrib g ((px : ℤ), (py : ℤ)) x y =
      if sqDistPix (x, y) (px, py) ≤ radius_px ^ 2 then g (sqDistPix (x, y) (px, py))
      else 0 := by
  unfold amenityContrib kernelVal sqDistPix
  have e : (((x : ℤ) - px) ^ 2 + ((y : ℤ) - py) ^ 2).toNat =
      ((x : ℤ) - px).natAbs ^ 2 + ((y : ℤ) - py).natAbs ^ 2 := by
    rw [← Int.natAbs_sq ((x : ℤ) - px), ← Int.natAbs_sq ((y : ℤ) - py),
      ← Nat.cast_pow, ← Nat.cast_pow, ← Nat.cast_add, Int.toNat_ofNat]
  by_cases hS : ((x : ℤ) - px).natAbs ^ 2 + ((y : ℤ) - py).natAbs ^ 2 ≤ radius_px ^ 2
  · have hA : ((x : ℤ) - px).natAbs ≤ radius_px := by nlinarith
    have hB : ((y : ℤ) - py).natAbs ≤ radius_px := by nlinarith
    simp only [e, hS, hA, hB, and_self, if_true, if_pos]
  · rw [if_neg hS]
    split_ifs with hC hI
    · rw [e] at hI
      exact absurd hI hS
    · rfl
    · rfl

/-- For a single projected amenity inside the grid, the maximum of the
density map over the grid is exactly the kernel center value. -/
theorem single_gridMax (g : ℕ → ℚ) (px py width height : ℕ)
    (hpx : px < width) (hpy : py < height)
    (hpos : ∀ s, s ≤ radius_px ^ 2 → 0 < g s)
    (hanti : ∀ s t, s < t → t ≤ radius_px ^ 2 → g t < g s) :
    gridMax width height (density_map g [((px : ℤ), (py : ℤ))]) = g 0 := by
  have hg0 : 0 < g 0 := hpos 0 (Nat.zero_le _)
  have hub : ∀ x y : ℕ, density_map g [((px : ℤ), (py : ℤ))] x y ≤ g 0 := by
    intro x y
    have : density_map g [((px : ℤ), (py : ℤ))] x y =
        amenityContrib g ((px : ℤ), (py : ℤ)) x y := by
      simp [density_map]
    rw [this, amenityContrib_eq]
    split_ifs with h
    · rcases Nat.eq_zero_or_pos (sqDistPix (x, y) (px, py)) with h0 | h0
      · rw [h0]
      · exact le_of_lt (hanti 0 _ h0 h)
    · exact le_of_lt hg0
  apply le_antisymm
  · apply foldr_max_le (le_of_lt hg0)
    intro a ha
    obtain ⟨p, _, rfl⟩ := List.mem_map.mp ha
    exact hub p.1 p.2
  · have hc : density_map g [((px : ℤ), (py : ℤ))] px py = g 0 := by
      simp [density_map, amenityContrib_eq, sqDistPix_self]
    calc g 0 = density_map g [((px : ℤ), (py : ℤ))] px py := hc.symm
      _ ≤ _ := le_foldr_max
        (List.mem_map.mpr ⟨(px, py), mem_scanPixels.mpr ⟨hpx, hpy⟩, rfl⟩) 0

/-- Closed form of the amenity component for one amenity projected to
(px, py) inside the grid. -/
theorem single_amenity_closed_form (g : ℕ → ℚ) (pt : ℚ × ℚ) (b : Bounds)
    (width height px py : ℕ)
    (hproj : latlon_to_pixel pt.1 pt.2 b.min_lat b.max_lat b.min_lon b.max_lon
      height width = ((px : ℤ), (py : ℤ)))
    (hpx : px < width) (hpy : py < height)
    (hpos : ∀ s, s ≤ radius_px ^ 2 → 0 < g s)
    (hanti : ∀ s t, s < t → t ≤ radius_px ^ 2 → g t < g s)
    (x y : ℕ) :
    amenity_priority g [pt] b width height x y =
      (if sqDistPix (x, y) (px, py) ≤ radius_px ^ 2 then g (sqDistPix (x, y) (px, py))
        else 0) / g 0 * 10 := by
  have hg0 : 0 < g 0 := hpos 0 (Nat.zero_le _)
  have hpix : amenityPixels [pt] b width height = [((px : ℤ), (py : ℤ))] := by
    simp [amenityPixels, hproj]
  unfold amenity_priority
  rw [if_neg (by simp)]
  rw [hpix, single_gridMax g px py width height hpx hpy hpos hanti, if_pos hg0]
  congr 1
  simp [density_map, amenityContrib_eq]

/-- Claim C8: for an amenity list with exactly one point projected
inside the image, the amenity density field attains its maximum exactly
at that pixel, is weakly decreasing in the euclidean pixel distance
from it, and is exactly zero at every pixel whose distance exceeds the
kernel radius of 50 m at 0.3 m per pixel, that is 500/3 pixels. The
hypotheses on the abstract falloff (positivity and strict decrease on
the kernel circle) hold for the Gaussian it stands for. -/
theorem amenity_single_point (g : ℕ → ℚ) (pt : ℚ × ℚ) (b : Bounds)
    (width height px py : ℕ)
    (hproj : latlon_to_pixel pt.1 pt.2 b.min_lat b.max_lat b.min_lon b.max_lon
      height width = ((px : ℤ), (py : ℤ)))
    (hpx : px < width) (hpy : py < height)
    (hpos : ∀ s, s ≤ radius_px ^ 2 → 0 < g s)
    (hanti : ∀ s t, s < t → t ≤ radius_px ^ 2 → g t < g s) :
    (∀ x y, x < width → y < height → (x, y) ≠ (px, py) →
      amenity_priority g [pt] b width height x y <
        amenity_priority g [pt] b width height px py) ∧
    (∀ x y u v, x < width → y < height → u < width → v < height →
      sqDistPix (x, y) (px, py) ≤ sqDistPix (u, v) (px, py) →
      amenity_priority g [pt] b width height u v ≤
        amenity_priority g [pt] b width height x y) ∧
    (∀ x y, ((500 : ℚ)/3) ^ 2 < (sqDistPix (x, y) (px, py) : ℚ) →
      amenity_priority g [pt] b width height x y = 0) := by
  have hg0 : 0 < g 0 := hpos 0 (Nat.zero_le _)
  have hF := single_amenity_closed_form g pt b width height px py hproj hpx hpy hpos hanti
  have hub : ∀ x y : ℕ, (x, y) ≠ (px, py) →
      (if sqDistPix (x, y) (px, py) ≤ radius_px ^ 2 then g (sqDistPix (x, y) (px, py))
        else 0) < g 0 := by
    intro x y hne
    have hSpos : 0 < sqDistPix (x, y) (px, py) :=
      Nat.pos_of_ne_zero (fun h => hne ((sqDistPix_eq_zero_iff _ _).mp h))
    split_ifs with h
    · exact hanti 0 _ hSpos h
    · exact hg0
  refine ⟨?_, ?_, ?_⟩
  · intro x y hx hy hne
    rw [hF x y, hF px py, sqDistPix_self]
    rw [if_pos (Nat.zero_le _)]
    have := hub x y hne
    gcongr
  · intro x y u v hx hy hu hv hle
    rw [hF x y, hF u v]
    have hmono : (if sqDistPix (u, v) (px, py) ≤ radius_px ^ 2 then
          g (sqDistPix (u, v) (px, py)) else 0) ≤
        (if sqDistPix (x, y) (px, py) ≤ radius_px ^ 2 then
          g (sqDistPix (x, y) (px, py)) else 0) := by
      split_ifs with h1 h2 h2
      · rcases Nat.lt_or_ge (sqDistPix (x, y) (px, py)) (sqDistPix (u, v) (px, py)) with
          hlt | hge
        · exact le_of_lt (hanti _ _ hlt h1)
        · have : sqDistPix (x, y) (px, py) = sqDistPix (u, v) (px, py) := by omega
          rw [this]
      · exact absurd (le_trans hle h1) h2
      · exact le_of_lt (hpos _ h2)
      · exact le_rfl
    gcongr
  · intro x y hfar
    rw [hF x y]
    have hgt : radius_px ^ 2 < sqDistPix (x, y) (px, py) := by
      rw [radius_px_eq]
      have h9 : (250000 : ℚ) < 9 * (sqDistPix (x, y) (px, py) : ℚ) := by
        nlinarith
      have h9n : (250000 : ℕ) < 9 * sqDistPix (x, y) (px, py) := by exact_mod_cast h9
      omega
    rw [if_neg (by omega)]
    simp

theorem demoFalloff_pos (s : ℕ) : 0 < demoFalloff s := by
  unfold demoFalloff
  positivity

theorem demoFalloff_anti (s t : ℕ) (h : s < t) (ht : t ≤ radius_px ^ 2) :
    demoFalloff t < demoFalloff s := by
  unfold demoFalloff
  have h1 : (0 : ℚ) < (s : ℚ) + 1 := by positivity
  have h2 : (s : ℚ) + 1 < (t : ℚ) + 1 := by
    have : (s : ℚ) < t := by exact_mod_cast h
    linarith
  exact one_div_lt_one_div_of_lt h1 h2

/-- Witness for C8: the single amenity at (lat, lon) = (1/2, 1/2) with
bounds 0..1 on a 3 by 3 grid projects to the interior pixel (1, 1). -/
theorem amenity_single_point_witness :
    (∀ x y, x < 3 → y < 3 → (x, y) ≠ (1, 1) →
      amenity_priority demoFalloff [((1 : ℚ)/2, (1 : ℚ)/2)] ⟨0, 0, 1, 1⟩ 3 3 x y <
        amenity_priority demoFalloff [((1 : ℚ)/2, (1 : ℚ)/2)] ⟨0, 0, 1, 1⟩ 3 3 1 1) ∧
    (∀ x y u v, x < 3 → y < 3 → u < 3 → v < 3 →
      sqDistPix (x, y) (1, 1) ≤ sqDistPix (u, v) (1, 1) →
      amenity_priority demoFalloff [((1 : ℚ)/2, (1 : ℚ)/2)] ⟨0, 0, 1, 1⟩ 3 3 u v ≤
        amenity_priority demoFalloff [((1 : ℚ)/2, (1 : ℚ)/2)] ⟨0, 0, 1, 1⟩ 3 3 x y) ∧
    (∀ x y, ((500 : ℚ)/3) ^ 2 < (sqDistPix (x, y) (1, 1) : ℚ) →
      amenity_priority demoFalloff [((1 : ℚ)/2, (1 : ℚ)/2)] ⟨0, 0, 1, 1⟩ 3 3 x y = 0) :=
  amenity_single_point demoFalloff ((1 : ℚ)/2, (1 : ℚ)/2) ⟨0, 0, 1, 1⟩ 3 3 1 1
    (by norm_num [latlon_to_pixel, pyTrunc, Prod.ext_iff])
    (by norm_num) (by norm_num)
    (fun s _ => demoFalloff_pos s) demoFalloff_anti

/-! ## Claim C7 -/

theorem spotLE_trans (a c e : CriticalSpot) (h1 : spotLE a c = true)
    (h2 : spotLE c e = true) : spotLE a e = true := by
  simp only [spotLE, Bool.or_eq_true, Bool.and_eq_true, decide_eq_true_eq] at h1 h2 ⊢
  rcases h1 with h1 | ⟨h1e, h1i⟩ <;> rcases h2 with h2 | ⟨h2e, h2i⟩
  · exact Or.inl (lt_trans h2 h1)
  · exact Or.inl (h2e ▸ h1)
  · rw [h1e] at h2
    exact Or.inl h2
  · exact Or.inr ⟨h2e.trans h1e, h1i.trans h2i⟩

theorem spotLE_total (a c : CriticalSpot) : (spotLE a c || spotLE c a) = true := by
  simp only [spotLE, Bool.or_eq_true, Bool.and_eq_true, decide_eq_true_eq]
  rcases lt_trichotomy a.priority_score c.priority_score with h | h | h
  · exact Or.inr (Or.inl h)
  · rcases Nat.le_total a.spot_id c.spot_id with hi | hi
    · exact Or.inl (Or.inr ⟨h.symm, hi⟩)
    · exact Or.inr (Or.inr ⟨h, hi⟩)
  · exact Or.inl (Or.inl h)

theorem le_fst_of_mem_enumFrom {α : Type} {p : ℕ × α} {l : List α} {n : ℕ}
    (h : p ∈ l.enumFrom n) : n ≤ p.1 := by
  induction l generalizing n with
  | nil => cases h
  | cons a t ih =>
    rw [List.enumFrom_cons] at h
    rcases List.mem_cons.mp h with rfl | h2
    · exact le_rfl
    · exact le_of_lt (Nat.lt_of_lt_of_le (Nat.lt_succ_self n) (ih h2))

theorem pairwise_fst_lt_enumFrom {α : Type} (l : List α) (n : ℕ) :
    List.Pairwise (fun p q : ℕ × α => p.1 < q.1) (l.enumFrom n) := by
  induction l generalizing n with
  | nil => exact List.Pairwise.nil
  | cons a t ih =>
    rw [List.enumFrom_cons]
    refine List.Pairwise.cons ?_ (ih (n + 1))
    intro q hq
    exact Nat.lt_of_lt_of_le (Nat.lt_succ_self n) (le_fst_of_mem_enumFrom hq)

theorem spotsUnsorted_pairwise_id (critical : ℕ → ℕ → Bool) (score : ℕ → ℕ → ℚ)
    (b : Bounds) (img_height img_width : ℕ) :
    List.Pairwise (fun s t : CriticalSpot => s.spot_id < t.spot_id)
      (spotsUnsorted critical score b img_height img_width) := by
  unfold spotsUnsorted
  refine List.Pairwise.filterMap _ ?_ (pairwise_fst_lt_enumFrom _ 0)
  intro a a' hR s hs s' hs'
  simp only [Option.mem_def] at hs hs'
  split_ifs at hs with h1
  split_ifs at hs' with h2
  have e1 : s.spot_id = a.1 + 1 := by
    cases hs
    rfl
  have e2 : s'.spot_id = a'.1 + 1 := by
    cases hs'
    rfl
  rw [e1, e2]
  omega

set_option maxRecDepth 10000 in
/-- The spot list built from one 21-pixel component covering a 3 by 7
mask, computed once and shared by the C7 counterexample and witness. -/
theorem demoSpotsUnsorted_eq :
    spotsUnsorted (fun _ _ => true) (fun _ _ => 85) ⟨0, 0, 1, 1⟩ 3 7 =
      [demoSpot] := by
  have hcomp : connectedComponents 7 3 (fun _ _ => true) =
      [[(0, 0), (1, 0), (0, 1), (1, 1), (2, 0), (2, 1), (0, 2), (1, 2), (2, 2), (3, 0), (3, 1),
        (3, 2), (4, 0), (4, 1), (4, 2), (5, 0), (5, 1), (5, 2), (6, 0), (6, 1), (6, 2)]] := by
    decide
  rw [spotsUnsorted, hcomp]
  simp only [List.enum, List.enumFrom, List.filterMap_cons, List.filterMap_nil,
    List.length_cons, List.length_nil]
  norm_num [spotOfComponent, demoSpot, pixel_to_latlon, CriticalSpot.mk.injEq, pyRoundTo,
    pyRound, Int.fract]

/-- Counterexample to C7 as stated: a single 21-pixel component
survives the noise floor, and the code reports its area as
round(21 * 0.36, 1) = 7.6 square meters, not the exact product
21 * 0.36 = 7.56 claimed; the reported mean score is likewise the
rounded one. -/
theorem extract_critical_spots_area_not_exact :
    extract_critical_spots (fun _ _ => true) (fun _ _ => 85) ⟨0, 0, 1, 1⟩ 3 7 = [demoSpot] ∧
    demoSpot.area_m2 ≠ (demoSpot.area_pixels : ℚ) * (9/25) := by
  constructor
  · rw [extract_critical_spots, demoSpotsUnsorted_eq]
    simp
  · norm_num [demoSpot]

/-- Claim C7 amended: every component with area below 20 pixels is
discarded and every component with area at least 20 yields exactly one
spot; a surviving spot reports its area in square meters as the
one-decimal rounding of area_px * 0.36 (not the exact product) and its
score as the one-decimal rounding of the mean score over the component;
the output is sorted by that rounded mean descending, and ties of the
rounded mean keep encounter (label) order. -/
theorem extract_critical_spots_spec (critical : ℕ → ℕ → Bool) (score : ℕ → ℕ → ℚ)
    (b : Bounds) (img_height img_width : ℕ) :
    (∀ s ∈ extract_critical_spots critical score b img_height img_width,
      20 ≤ s.area_pixels ∧
        s.area_m2 = pyRoundTo 1 ((s.area_pixels : ℚ) * (9/25))) ∧
    (∀ ic ∈ (connectedComponents img_width img_height critical).enum,
      20 ≤ ic.2.length →
      ∃ s ∈ extract_critical_spots critical score b img_height img_width,
        s.spot_id = ic.1 + 1 ∧ s.area_pixels = ic.2.length ∧
        s.priority_score =
          pyRoundTo 1 ((ic.2.map (fun p => score p.1 p.2)).sum / ic.2.length)) ∧
    List.Pairwise (fun s t : CriticalSpot => t.priority_score < s.priority_score ∨
        (t.priority_score = s.priority_score ∧ s.spot_id < t.spot_id))
      (extract_critical_spots critical score b img_height img_width) := by
  refine ⟨?_, ?_, ?_⟩
  · intro s hs
    rw [extract_critical_spots, List.mem_mergeSort] at hs
    obtain ⟨ic, hic, hf⟩ := List.mem_filterMap.mp hs
    split_ifs at hf with h1
    have hs2 : s = spotOfComponent score b img_height img_width (ic.1 + 1) ic.2 := by
      cases hf
      rfl
    rw [hs2]
    constructor
    · simpa [spotOfComponent] using Nat.le_of_not_lt h1
    · simp [spotOfComponent]
  · intro ic hic hlen
    refine ⟨spotOfComponent score b img_height img_width (ic.1 + 1) ic.2, ?_, ?_, ?_, ?_⟩
    · rw [extract_critical_spots, List.mem_mergeSort]
      refine List.mem_filterMap.mpr ⟨ic, hic, ?_⟩
      rw [if_neg (by omega)]
    · simp [spotOfComponent]
    · simp [spotOfComponent]
    · simp [spotOfComponent]
  · have hsorted : ((spotsUnsorted critical score b img_height img_width).mergeSort
        spotLE).Pairwise (fun s t => spotLE s t = true) :=
      List.sorted_mergeSort spotLE_trans spotLE_total
        (spotsUnsorted critical score b img_height img_width)
    have hperm := List.mergeSort_perm
      (spotsUnsorted critical score b img_height img_width) spotLE
    have hid := spotsUnsorted_pairwise_id critical score b img_height img_width
    have hne : List.Pairwise (fun s t : CriticalSpot => s.spot_id ≠ t.spot_id)
        ((spotsUnsorted critical score b img_height img_width).mergeSort spotLE) :=
      (hperm.symm).pairwise (hid.imp (fun h => Nat.ne_of_lt h))
        (fun h => Ne.symm h)
    have hcomb := hsorted.and hne
    rw [extract_critical_spots]
    refine hcomb.imp ?_
    rintro s t ⟨hle, hno⟩
    simp only [spotLE, Bool.or_eq_true, Bool.and_eq_true, decide_eq_true_eq] at hle
    rcases hle with h | ⟨he, hi⟩
    · exact Or.inl h
    · exact Or.inr ⟨he, Nat.lt_of_le_of_ne hi hno⟩

/-- Witness for the amended C7, applied to the concrete 21-pixel
component of the counterexample. -/
theorem extract_critical_spots_spec_witness :
    20 ≤ demoSpot.area_pixels ∧
      demoSpot.area_m2 = pyRoundTo 1 ((demoSpot.area_pixels : ℚ) * (9/25)) :=
  (extract_critical_spots_spec (fun _ _ => true) (fun _ _ => 85) ⟨0, 0, 1, 1⟩ 3 7).1 _
    (by rw [extract_critical_spots, demoSpotsUnsorted_eq]
        simp)

end UrbanTree
